import Mathlib

/-!
Verification of the cp2k-to-deepmd converter (src/utils.py,
src/multicpk2deepmd.py, src/split_train_test.py) against its
natural-language specification.  The Python sources are shallowly
embedded: machine floats become exact rationals, a whitespace token of a
scalar file becomes an `Option ℚ` (`none` when Python `float(token)`
raises `ValueError`), lines of the trajectory/forces files become small
inductive classifications carrying exactly the fields the Python code
extracts, and every operation that can raise a Python exception returns
`Except Err`.
-/

namespace Cp2kToDeepmd

/-- The Python exceptions and assertion failures the embedded code can raise.
`shapeMismatch` stands for the `assert` failures in `read_forces_data` /
`read_position_data`, `valueError` for `ValueError` (failed numeric
conversion, or a numpy broadcast failure when a frame's atom count differs
from the first frame's), `indexError` for `IndexError` (indexing an empty or
too-short list), `stopIteration` for `next(file)` on an empty file, and
`typeError` for the `list + int` error of the `--ZERO_DATA` branch. -/
inductive Err where
  | stopIteration
  | indexError
  | valueError
  | shapeMismatch
  | typeError
deriving DecidableEq

instance exceptDecEq {ε α : Type} [DecidableEq ε] [DecidableEq α] :
    DecidableEq (Except ε α)
  | .error e, .error f =>
      if h : e = f then .isTrue (by rw [h])
      else .isFalse (by intro hc; cases hc; exact h rfl)
  | .error _, .ok _ => .isFalse (by intro hc; cases hc)
  | .ok _, .error _ => .isFalse (by intro hc; cases hc)
  | .ok x, .ok y =>
      if h : x = y then .isTrue (by rw [h])
      else .isFalse (by intro hc; cases hc; exact h rfl)

/-- One whitespace token of a cell/energy file row: `some q` when Python
`float(token)` succeeds with (exact) value `q`, `none` when the conversion
raises `ValueError`. -/
abbrev Token := Option ℚ

/-- Model of utils.py lines 42-60: the per-column value lists built by
`read_cell_or_energy_data`.  A row is kept only when its token count equals
the schema's column count (`len(values) != len(columns)` skips the whole
row); within a kept row, token `i` is appended to column `i` only when its
float conversion succeeds (`except ValueError: continue` skips that single
value). -/
def colValues (ncols : ℕ) (rows : List (List Token)) (i : ℕ) : List ℚ :=
  (rows.filter (fun r => r.length == ncols)).filterMap (fun r => r.getD i none)

/-- The number of rows the reader keeps: rows whose token count matches the
schema's column count (utils.py line 46). -/
def numParsed (ncols : ℕ) (rows : List (List Token)) : ℕ :=
  (rows.filter (fun r => r.length == ncols)).length

/-- Model of utils.py lines 37-86, `read_cell_or_energy_data` in full.  The
file is the header line followed by the data rows; `next(file)` raises
`StopIteration` on an empty file.  The post-read diagnostic (line 73)
evaluates `data[time][-1]`, `data[time][0]`, `data[step][-1]`,
`data[step][0]` and `data[time][1]` in that order, raising `IndexError`
when the corresponding list is too short; it runs only when the time
column's key is present in the dict, which happens exactly when some row
was kept (the loop at lines 51-53 creates every schema column's key, in
schema order, as soon as one row matches).  The returned dict is modelled
as the list of columns in schema order. -/
def read_cell_or_energy_data (ncols stepIdx timeIdx : ℕ)
    (file : List (List Token)) : Except Err (List (List ℚ)) :=
  match file with
  | [] => .error .stopIteration
  | _header :: rows =>
      if decide (timeIdx < ncols) && rows.any (fun r => r.length == ncols) then
        if (colValues ncols rows timeIdx).length = 0 then .error .indexError
        else if (colValues ncols rows stepIdx).length = 0 then .error .indexError
        else if (colValues ncols rows timeIdx).length < 2 then .error .indexError
        else .ok ((List.range ncols).map (colValues ncols rows))
      else .ok ((List.range ncols).map (colValues ncols rows))

/-- The cell schema of utils.py line 28: 12 columns with `Step` at index 0
and `Time [fs]` at index 1. -/
def read_cell_data (file : List (List Token)) : Except Err (List (List ℚ)) :=
  read_cell_or_energy_data 12 0 1 file

/-- The energy schema of utils.py line 30: 7 columns with `Step Nr.` at
index 0 and `Time[fs]` at index 1. -/
def read_energy_data (file : List (List Token)) : Except Err (List (List ℚ)) :=
  read_cell_or_energy_data 7 0 1 file

/-- A kept cell row whose third token (`Ax`) fails float conversion: every
other column receives a value, column 2 does not. -/
def badTokenRow : List Token :=
  [some 0, some (1/2), none, some 1, some 1, some 1,
   some 1, some 1, some 1, some 1, some 1, some 1]

/-- A cell file (header plus rows) in which every token of every kept row
converts successfully. -/
def goodCellRows : List (List Token) :=
  [List.replicate 12 (some 1), List.replicate 12 (some 2)]

/-- C1 (counterexample): the claimed equal-length invariant fails on the
code.  For a cell file with a single kept 12-token row whose third token
fails float conversion, column 0 has length 1 (equal to the number of kept
rows) while column 2 has length 0: a failed token skips only that single
value, which makes the columns of the returned series unequal. -/
theorem c1_counterexample :
    numParsed 12 [badTokenRow] = 1 ∧
    (colValues 12 [badTokenRow] 0).length = 1 ∧
    (colValues 12 [badTokenRow] 2).length ≠ numParsed 12 [badTokenRow] := by
  decide

/-- C1 (amended): for every cell or energy file in which every token of
every kept row (a row whose token count matches the schema's column count)
converts to a float successfully, all columns of the series returned by
`read_cell_or_energy_data` have equal length, namely the number of kept
rows.  Without that proviso a failed token shortens its own column only. -/
theorem c1_all_columns_equal (ncols : ℕ) (rows : List (List Token))
    (hconv : ∀ r ∈ rows, r.length = ncols → ∀ t ∈ r, t.isSome) :
    ∀ i, i < ncols → (colValues ncols rows i).length = numParsed ncols rows := by
  intro i hi
  induction rows with
  | nil => rfl
  | cons r rs ih =>
      have hrs : ∀ r' ∈ rs, r'.length = ncols → ∀ t ∈ r', t.isSome := by
        intro r' hmem
        exact hconv r' (List.mem_cons_of_mem _ hmem)
      have ih2 := ih hrs
      by_cases hr : r.length = ncols
      · have hget : r.getD i none ∈ r := by
          have hlt : i < r.length := by omega
          rw [List.getD_eq_getElem r none hlt]
          exact List.getElem_mem hlt
        have hsome := hconv r (List.mem_cons_self r rs) hr _ hget
        obtain ⟨v, hv⟩ := Option.isSome_iff_exists.mp hsome
        have hbeq : (r.length == ncols) = true := by simpa using hr
        simp only [colValues, numParsed, List.filter_cons, hbeq, if_true,
          List.filterMap_cons, hv, List.length_cons]
        simpa [colValues, numParsed] using ih2
      · simp only [colValues, numParsed, List.filter_cons]
        have : (r.length == ncols) = false := by
          simpa using hr
        simp only [this, Bool.false_eq_true, if_false]
        simpa [colValues, numParsed] using ih2

/-- C1 witness: the amended theorem applied to a concrete well-formed cell
file with two kept rows. -/
theorem c1_witness :
    (∀ r ∈ goodCellRows, r.length = 12 → ∀ t ∈ r, t.isSome) ∧
    (colValues 12 goodCellRows 0).length = numParsed 12 goodCellRows :=
  ⟨by decide, c1_all_columns_equal 12 goodCellRows (by decide) 0 (by decide)⟩

/-- A cell file with a header line and exactly one fully valid 12-token
row: the diagnostic print then evaluates `data[time][1]`, which raises
`IndexError`. -/
def oneRowCellFile : List (List Token) :=
  [[], List.replicate 12 (some 1)]

/-- C7 (counterexample): `read_cell_or_energy_data` is not exception-free.
On a cell file with exactly one successfully parsed row the post-read
diagnostic indexes `data['Time [fs]'][1]` (utils.py line 73) and raises an
uncaught `IndexError`. -/
theorem c7_counterexample :
    read_cell_data oneRowCellFile = .error .indexError := by
  decide

/-- C7 (amended): `read_cell_or_energy_data` on a non-empty file raises no
exception if and only if either no row was kept (so the time column's key
is absent and the reader prints the fallback diagnostic) or the parsed time
column has at least two entries and the parsed step column at least one.
In particular files yielding exactly one parsed row, and empty files
(where `next(file)` raises `StopIteration`), do raise. -/
theorem c7_no_exception (ncols stepIdx timeIdx : ℕ) (header : List Token)
    (rows : List (List Token)) :
    (∃ d, read_cell_or_energy_data ncols stepIdx timeIdx (header :: rows) = .ok d) ↔
      ((decide (timeIdx < ncols) && rows.any (fun r => r.length == ncols)) = true →
        2 ≤ (colValues ncols rows timeIdx).length ∧
        1 ≤ (colValues ncols rows stepIdx).length) := by
  constructor
  · intro hok hpresent
    obtain ⟨d, hd⟩ := hok
    rw [read_cell_or_energy_data] at hd
    simp only [hpresent, if_true] at hd
    by_cases h1 : (colValues ncols rows timeIdx).length = 0
    · simp [h1] at hd
    · by_cases h2 : (colValues ncols rows stepIdx).length = 0
      · simp [h1, h2] at hd
      · by_cases h3 : (colValues ncols rows timeIdx).length < 2
        · simp [h1, h2, h3] at hd
        · omega
  · intro hlen
    rw [read_cell_or_energy_data]
    by_cases hpresent :
        (decide (timeIdx < ncols) && rows.any (fun r => r.length == ncols)) = true
    · obtain ⟨h2, h1⟩ := hlen hpresent
      have ht0 : ¬ (colValues ncols rows timeIdx).length = 0 := by omega
      have hs0 : ¬ (colValues ncols rows stepIdx).length = 0 := by omega
      have ht2 : ¬ (colValues ncols rows timeIdx).length < 2 := by omega
      simp [hpresent, ht0, hs0, ht2]
    · simp [hpresent]

/-- One line of a forces (`.for`) file, classified exactly as
`read_forces_data` (utils.py lines 112-130) inspects it, in the order of
the Python tests:
`header` contains all of "Atom", "Kind", "Element" (line 113, checked
first, so a line also containing the banner phrase is a header);
`banner` contains "ATOMIC FORCES" and not all three header markers
(line 120, skipped wherever it occurs);
`short` is neither of the above and has fewer than 6 whitespace tokens
(line 124);
`entry kind elem x y z` has at least 6 tokens, of which the second parses
as the integer `kind`, the third is the element symbol, and the
fourth-sixth parse as floats (tokens beyond the sixth are ignored,
line 127; the first token, the atom index, is read but unused);
`bad` has at least 6 tokens but `int(kind)` or one of the three float
conversions raises `ValueError`. -/
inductive ForceLine where
  | header
  | banner
  | short
  | entry (kind : ℤ) (elem : String) (x y z : ℚ)
  | bad
deriving DecidableEq

/-- The mutable state of the scanning loop of `read_forces_data`
(utils.py lines 106-110). -/
structure FState where
  kind_to_element : List (ℤ × String)
  arrangement : List (ℤ × String)
  frames : List (List (ℚ × ℚ × ℚ))
  current_frames : List (ℚ × ℚ × ℚ)
  header_found : Bool
deriving DecidableEq

def initFState : FState := ⟨[], [], [], [], false⟩

/-- Python dict update `kind_to_element[int(kind)] = element` on an
insertion-ordered association list: an existing key keeps its position and
receives the new value (last writer wins), a new key is appended. -/
def dictInsert (m : List (ℤ × String)) (k : ℤ) (e : String) : List (ℤ × String) :=
  if m.any (fun p => p.1 == k) then
    m.map (fun p => if p.1 == k then (k, e) else p)
  else m ++ [(k, e)]

/-- Model of utils.py lines 112-130: processing of one line of the forces
file.  A header line flushes a non-empty current frame and sets
`header_found`; banner and short lines are skipped; a data line before the
first header is skipped (`if not header_found: continue`); a data line
after it updates the kind map, the arrangement list and the current frame;
a line with an unconvertible numeric token raises `ValueError`, but only
once a header has been seen (before that the line is skipped unparsed). -/
def forcesLine (st : FState) (l : ForceLine) : Except Err FState :=
  match l with
  | .header => .ok { st with
      header_found := true,
      frames := if st.current_frames.isEmpty then st.frames
                else st.frames ++ [st.current_frames],
      current_frames := [] }
  | .banner => .ok st
  | .short => .ok st
  | .entry kind elem x y z =>
      if st.header_found then
        .ok { st with
          kind_to_element := dictInsert st.kind_to_element kind elem,
          arrangement := st.arrangement ++ [(kind, elem)],
          current_frames := st.current_frames ++ [(x, y, z)] }
      else .ok st
  | .bad => if st.header_found then .error .valueError else .ok st

/-- The `for line in lines` loop of `read_forces_data`: sequential scan with
early exit on the first raised exception. -/
def forcesScan : FState → List ForceLine → Except Err FState
  | st, [] => .ok st
  | st, l :: ls =>
      match forcesLine st l with
      | .ok st' => forcesScan st' ls
      | .error e => .error e

/-- Model of utils.py lines 132-133: the final flush of a pending non-empty
frame after the scan. -/
def finalFrames (st : FState) : List (List (ℚ × ℚ × ℚ)) :=
  if st.current_frames.isEmpty then st.frames else st.frames ++ [st.current_frames]

/-- Row-major flattening of one frame, `np.array(frame).flatten()`:
the (fx,fy,fz) triples in atom-listing order. -/
def flattenFrame (fr : List (ℚ × ℚ × ℚ)) : List ℚ :=
  (fr.map (fun t => [t.1, t.2.1, t.2.2])).flatten

/-- Model of utils.py lines 89-149, `read_forces_data`.  After the scan and
final flush: `frames[0]` raises `IndexError` when no frame was recognized
(line 136); the two orderings are the accumulated arrangement truncated to
`int(len(arrangement)/num_frames)` entries (lines 138-139, float division
truncated, here exact natural division); the assert at line 141
(`num_atoms*3 == data.shape[1]`) is tautologically true of the constructed
array; the assert at line 142 compares the frame count with
`int(nsteps / STDPRINT) + 1` and fails with the ShapeMismatch condition
otherwise; finally the fill loop `data[i] = np.array(frame).flatten()`
(lines 146-147) raises a broadcast `ValueError` when some frame's atom
count differs from the first frame's. -/
def read_forces_data (lines : List ForceLine) (nsteps STDPRINT : ℕ) :
    Except Err (List (ℤ × String) × List String × List ℤ × List (List ℚ)) :=
  match forcesScan initFState lines with
  | .error e => .error e
  | .ok st =>
      let frames := finalFrames st
      if frames.length = 0 then .error .indexError
      else
        let num_atoms := (frames.headD []).length
        let ordering := st.arrangement.take (st.arrangement.length / frames.length)
        if frames.length = nsteps / STDPRINT + 1 then
          if frames.all (fun fr => fr.length == num_atoms) then
            .ok (st.kind_to_element, ordering.map (fun p => p.2),
                 ordering.map (fun p => p.1), frames.map flattenFrame)
          else .error .valueError
        else .error .shapeMismatch

/-- One line of a trajectory (`.xyz`) file, classified exactly as
`read_position_data` (utils.py lines 172-187) inspects it:
`header` contains all of "i =", "time =", "E =" (line 173);
`entry x y z` has exactly 4 whitespace tokens whose second-fourth parse as
floats (the first, the atom label, is unused);
`skip` has a token count different from 4 (line 183);
`bad` has exactly 4 tokens with a failing float conversion. -/
inductive PosLine where
  | header
  | entry (x y z : ℚ)
  | skip
  | bad
deriving DecidableEq

/-- The mutable state of the scanning loop of `read_position_data`
(utils.py lines 168-170). -/
structure PState where
  frames : List (List (ℚ × ℚ × ℚ))
  current_frame : List (ℚ × ℚ × ℚ)
  frame_started : Bool
deriving DecidableEq

def initPState : PState := ⟨[], [], false⟩

/-- Model of utils.py lines 172-187: processing of one line of the
trajectory file.  A header line flushes a non-empty current frame (only
when a frame had already started) and starts a new frame; data lines are
parsed only once a frame has started; a 4-token line with a failing float
conversion raises `ValueError` in that case. -/
def positionLine (st : PState) (l : PosLine) : Except Err PState :=
  match l with
  | .header =>
      if st.frame_started then
        if st.current_frame.isEmpty then .ok { st with frame_started := true }
        else .ok { frames := st.frames ++ [st.current_frame],
                   current_frame := [], frame_started := true }
      else .ok { st with frame_started := true }
  | .entry x y z =>
      if st.frame_started then
        .ok { st with current_frame := st.current_frame ++ [(x, y, z)] }
      else .ok st
  | .skip => .ok st
  | .bad => if st.frame_started then .error .valueError else .ok st

/-- The `for line in lines` loop of `read_position_data`. -/
def positionScan : PState → List PosLine → Except Err PState
  | st, [] => .ok st
  | st, l :: ls =>
      match positionLine st l with
      | .ok st' => positionScan st' ls
      | .error e => .error e

/-- Model of utils.py lines 189-190: the final flush of a pending non-empty
frame. -/
def finalPosFrames (st : PState) : List (List (ℚ × ℚ × ℚ)) :=
  if st.current_frame.isEmpty then st.frames else st.frames ++ [st.current_frame]

/-- Model of utils.py lines 152-206, `read_position_data`.  As in
`read_forces_data` but the assert at line 198 compares the frame count with
`int(nsteps / STDPRINT)` — without the `+ 1` of the forces reader. -/
def read_position_data (lines : List PosLine) (nsteps STDPRINT : ℕ) :
    Except Err (List (List ℚ)) :=
  match positionScan initPState lines with
  | .error e => .error e
  | .ok st =>
      let frames := finalPosFrames st
      if frames.length = 0 then .error .indexError
      else
        let num_atoms := (frames.headD []).length
        if frames.length = nsteps / STDPRINT then
          if frames.all (fun fr => fr.length == num_atoms) then
            .ok (frames.map flattenFrame)
          else .error .valueError
        else .error .shapeMismatch

/-- C9: for any trajectory or forces input in which the scan raises nothing
and recognizes no frame (no frame-header line, or headers with no valid
data lines), both `read_position_data` and `read_forces_data` raise an
uncaught `IndexError` at `frames[0]` rather than returning an empty tensor:
`num_frames >= 1` is an unstated precondition of both parsers. -/
theorem c9_empty_frames (plines : List PosLine) (flines : List ForceLine)
    (pst : PState) (fs : FState) (n1 s1 n2 s2 : ℕ)
    (hp : positionScan initPState plines = .ok pst)
    (hpe : finalPosFrames pst = [])
    (hf : forcesScan initFState flines = .ok fs)
    (hfe : finalFrames fs = []) :
    read_position_data plines n1 s1 = .error .indexError ∧
    read_forces_data flines n2 s2 = .error .indexError := by
  constructor
  · rw [read_position_data, hp]
    simp [hpe]
  · rw [read_forces_data, hf]
    simp [hfe]

/-- C9 witness: both parsers applied to empty files. -/
theorem c9_witness :
    read_position_data [] 10 1 = .error .indexError ∧
    read_forces_data [] 10 1 = .error .indexError :=
  c9_empty_frames [] [] initPState initFState 10 1 10 1 rfl rfl rfl rfl

/-- C4 (counterexample): the claimed "if and only if" fails on the code.
A forces file consisting of a single header line parses to zero frames, a
count that differs from `int(4/2) + 1 = 3`, yet `read_forces_data` fails
with an uncaught `IndexError` at `frames[0]` — not with the ShapeMismatch
assertion. -/
theorem c4_counterexample :
    forcesScan initFState [ForceLine.header] = .ok ⟨[], [], [], [], true⟩ ∧
    (finalFrames ⟨[], [], [], [], true⟩).length ≠ 4 / 2 + 1 ∧
    read_forces_data [ForceLine.header] 4 2 = .error .indexError := by
  refine ⟨rfl, by decide, ?_⟩
  rfl

/-- C4 (amended): for forces inputs whose scan raises no conversion error,
which yield at least one frame, and whose frames all have the first frame's
atom count, `read_forces_data` fails with the ShapeMismatch assertion if
and only if the parsed frame count differs from
`floor(nsteps/print_stride) + 1`, and returns normally if and only if the
count equals it (the +1 offset relative to `read_position_data`'s check).
On zero parsed frames it instead raises `IndexError`. -/
theorem c4_shape_check (lines : List ForceLine) (nsteps STD : ℕ) (st : FState)
    (hok : forcesScan initFState lines = .ok st)
    (hne : finalFrames st ≠ [])
    (huni : ∀ fr ∈ finalFrames st,
      fr.length = ((finalFrames st).headD []).length) :
    (read_forces_data lines nsteps STD = .error .shapeMismatch ↔
        (finalFrames st).length ≠ nsteps / STD + 1) ∧
    ((∃ out, read_forces_data lines nsteps STD = .ok out) ↔
        (finalFrames st).length = nsteps / STD + 1) := by
  have h0 : ¬ (finalFrames st).length = 0 := by
    simpa [List.length_eq_zero] using hne
  have hall : (finalFrames st).all
      (fun fr => fr.length == ((finalFrames st).headD []).length) = true := by
    rw [List.all_eq_true]
    intro fr hfr
    simpa using huni fr hfr
  rw [read_forces_data, hok]
  by_cases hc : (finalFrames st).length = nsteps / STD + 1
  · constructor
    · simp only [if_neg h0, if_pos hc, if_pos hall]
      simp [hc]
    · simp only [if_neg h0, if_pos hc, if_pos hall]
      exact ⟨fun _ => hc, fun _ => ⟨_, rfl⟩⟩
  · simp [h0, hc]

/-- A forces file whose single frame holds one atom: with `nsteps = 0` and
`STDPRINT = 1` the expected count `0/1 + 1 = 1` matches. -/
def oneFrameForces : List ForceLine :=
  [ForceLine.header, ForceLine.entry 1 "H" 0 0 0]

/-- C4 witness: the amended theorem applied to a one-frame forces file that
passes the frame-count check. -/
theorem c4_witness :
    read_forces_data oneFrameForces 0 1 = .error .shapeMismatch ↔
      (finalFrames ⟨[(1, "H")], [(1, "H")], [], [(0, 0, 0)], true⟩).length ≠ 0 / 1 + 1 :=
  (c4_shape_check oneFrameForces 0 1 ⟨[(1, "H")], [(1, "H")], [], [(0, 0, 0)], true⟩
    (by decide) (by decide) (by decide)).1

/-- The number of atom entries accumulated so far: the sizes of the flushed
frames plus the pending frame. -/
def framesSize (st : FState) : ℕ :=
  (st.frames.map List.length).sum + st.current_frames.length

/-- Each line processed by `read_forces_data` appends to `arrangement` and
to the current frame in lockstep, so the arrangement's length always equals
the total number of accumulated atom entries. -/
theorem forcesLine_size (st st' : FState) (l : ForceLine)
    (h : forcesLine st l = .ok st')
    (hinv : st.arrangement.length = framesSize st) :
    st'.arrangement.length = framesSize st' := by
  cases l with
  | header =>
      simp only [forcesLine, Except.ok.injEq] at h
      subst h
      by_cases hcur : st.current_frames.isEmpty
      · have : st.current_frames = [] := by
          simpa [List.isEmpty_iff] using hcur
        simp_all [framesSize]
      · simp_all [framesSize]
  | banner =>
      simp only [forcesLine, Except.ok.injEq] at h
      subst h
      exact hinv
  | short =>
      simp only [forcesLine, Except.ok.injEq] at h
      subst h
      exact hinv
  | entry kind elem x y z =>
      by_cases hf : st.header_found
      · simp only [forcesLine, hf, if_true, Except.ok.injEq] at h
        subst h
        simp [framesSize] at hinv ⊢
        omega
      · simp only [forcesLine, hf, Bool.false_eq_true, if_false, Except.ok.injEq] at h
        subst h
        exact hinv
  | bad =>
      by_cases hf : st.header_found
      · simp [forcesLine, hf] at h
      · simp only [forcesLine, hf, Bool.false_eq_true, if_false, Except.ok.injEq] at h
        subst h
        exact hinv

/-- The lockstep invariant of `forcesLine_size`, carried through the whole
scan of the file. -/
theorem forcesScan_size (lines : List ForceLine) (st st' : FState)
    (h : forcesScan st lines = .ok st')
    (hinv : st.arrangement.length = framesSize st) :
    st'.arrangement.length = framesSize st' := by
  induction lines generalizing st with
  | nil =>
      simp only [forcesScan, Except.ok.injEq] at h
      subst h
      exact hinv
  | cons l ls ih =>
      rw [forcesScan] at h
      cases hstep : forcesLine st l with
      | ok stm =>
          rw [hstep] at h
          exact ih stm h (forcesLine_size st stm l hstep hinv)
      | error e =>
          rw [hstep] at h
          cases h

/-- The final flush preserves the total entry count. -/
theorem finalFrames_size (st : FState) :
    ((finalFrames st).map List.length).sum = framesSize st := by
  by_cases hcur : st.current_frames.isEmpty
  · have : st.current_frames = [] := by
      simpa [List.isEmpty_iff] using hcur
    simp [finalFrames, framesSize, hcur, this]
  · simp [finalFrames, framesSize, hcur]

/-- A list all of whose elements map to the same value sums to that value
times the length. -/
theorem sum_map_const {α : Type} (l : List α) (f : α → ℕ) (A : ℕ)
    (h : ∀ x ∈ l, f x = A) : (l.map f).sum = l.length * A := by
  induction l with
  | nil => simp
  | cons a as ih =>
      have ha := h a (List.mem_cons_self a as)
      have hrest := ih (fun x hx => h x (List.mem_cons_of_mem _ hx))
      simp [ha, hrest, Nat.succ_mul]
      omega

/-- Flattening one frame of triples yields three values per atom. -/
theorem flattenFrame_length (fr : List (ℚ × ℚ × ℚ)) :
    (flattenFrame fr).length = 3 * fr.length := by
  induction fr with
  | nil => rfl
  | cons t ts ih =>
      simp [flattenFrame] at ih ⊢
      omega

/-- C5: for every forces file whose scan raises nothing and yields `F ≥ 1`
frames with exactly `A` atoms listed in each, and which passes the
frame-count assertion, `read_forces_data` returns the tensor whose row `i`
is the flattened (fx,fy,fz) triples of frame `i` in atom-listing order
(shape `(F, 3A)`), and both atom-type ordering lists — the accumulated
arrangement truncated to `total_entries / F` entries — have length `A`. -/
theorem c5_force_tensor_shape (lines : List ForceLine) (nsteps STD : ℕ)
    (st : FState) (A : ℕ)
    (hok : forcesScan initFState lines = .ok st)
    (hne : finalFrames st ≠ [])
    (hA : ∀ fr ∈ finalFrames st, fr.length = A)
    (hcount : (finalFrames st).length = nsteps / STD + 1) :
    read_forces_data lines nsteps STD =
      .ok (st.kind_to_element,
           (st.arrangement.take A).map (fun p => p.2),
           (st.arrangement.take A).map (fun p => p.1),
           (finalFrames st).map flattenFrame) ∧
    ((finalFrames st).map flattenFrame).length = (finalFrames st).length ∧
    (∀ row ∈ (finalFrames st).map flattenFrame, row.length = 3 * A) ∧
    ((st.arrangement.take A).map (fun p => p.2)).length = A ∧
    ((st.arrangement.take A).map (fun p => p.1)).length = A := by
  have h0 : ¬ (finalFrames st).length = 0 := by
    simpa [List.length_eq_zero] using hne
  have hF : 0 < (finalFrames st).length := Nat.pos_of_ne_zero h0
  have harr : st.arrangement.length = (finalFrames st).length * A := by
    have h1 := forcesScan_size lines initFState st hok rfl
    rw [h1, ← finalFrames_size st]
    exact sum_map_const (finalFrames st) List.length A hA
  have hdiv : st.arrangement.length / (finalFrames st).length = A := by
    rw [harr]
    exact Nat.mul_div_cancel_left A hF
  have hAle : A ≤ st.arrangement.length := by
    rw [harr]
    exact Nat.le_mul_of_pos_left A hF
  have htake : (st.arrangement.take A).length = A := by
    rw [List.length_take]
    omega
  have hhead : ((finalFrames st).headD []).length = A := by
    obtain ⟨fr, rest, hcons⟩ := List.exists_cons_of_ne_nil hne
    rw [hcons]
    exact hA fr (by rw [hcons]; exact List.mem_cons_self fr rest)
  have hhead2 : ((finalFrames st).head?.getD []).length = A := by
    simpa using hhead
  have hall : (finalFrames st).all
      (fun fr => fr.length == ((finalFrames st).headD []).length) = true := by
    rw [List.all_eq_true]
    intro fr hfr
    simp [hA fr hfr, hhead2]
  refine ⟨?_, by simp, ?_, by simp; omega, by simp; omega⟩
  · rw [read_forces_data, hok]
    simp only [if_neg h0, if_pos hcount, if_pos hall]
    rw [hdiv]
  · intro row hrow
    obtain ⟨fr, hfr, hflat⟩ := List.mem_map.mp hrow
    rw [← hflat, flattenFrame_length, hA fr hfr]

/-- The forces file of the spec scenario: three frames of two atoms each,
kind 1 = H and kind 2 = O. -/
def sampleForces : List ForceLine :=
  [.header, .entry 1 "H" 1 2 3, .entry 2 "O" 4 5 6,
   .header, .entry 1 "H" 7 8 9, .entry 2 "O" 10 11 12,
   .header, .entry 1 "H" 13 14 15, .entry 2 "O" 16 17 18]

/-- The scan state reached at the end of `sampleForces`. -/
def sampleForcesState : FState :=
  ⟨[(1, "H"), (2, "O")],
   [(1, "H"), (2, "O"), (1, "H"), (2, "O"), (1, "H"), (2, "O")],
   [[(1, 2, 3), (4, 5, 6)], [(7, 8, 9), (10, 11, 12)]],
   [(13, 14, 15), (16, 17, 18)],
   true⟩

/-- C5 witness: the theorem applied to the concrete three-frame, two-atom
forces file with `nsteps = 2`, `STDPRINT = 1` (expected count 2/1 + 1 = 3). -/
theorem c5_witness :
    read_forces_data sampleForces 2 1 =
      .ok (sampleForcesState.kind_to_element,
           (sampleForcesState.arrangement.take 2).map (fun p => p.2),
           (sampleForcesState.arrangement.take 2).map (fun p => p.1),
           (finalFrames sampleForcesState).map flattenFrame) ∧
    ((sampleForcesState.arrangement.take 2).map (fun p => p.1)).length = 2 :=
  ⟨(c5_force_tensor_shape sampleForces 2 1 sampleForcesState 2
      (by decide) (by decide) (by decide) (by decide)).1,
   (c5_force_tensor_shape sampleForces 2 1 sampleForcesState 2
      (by decide) (by decide) (by decide) (by decide)).2.2.2.2⟩

/-- Model of multicpk2deepmd.py lines 76-78: `np.concatenate(..., axis=0)`
for box, energy and coordinates — each group's tensor is concatenated whole,
in group-list order. -/
def concatWhole {α : Type} (groups : List (List α)) : List α :=
  groups.flatten

/-- Model of multicpk2deepmd.py line 79:
`np.concatenate([idx[1:, :] for idx in force_data], axis=0)` — the first
row of every group's force tensor is dropped before concatenation. -/
def concatForces (groups : List (List (List ℚ))) : List (List ℚ) :=
  (groups.map (fun g => g.drop 1)).flatten

/-- C2: when the assembler concatenates `N ≥ 1` groups, box, energy and
coordinate tensors are concatenated whole in group-list order
(`Σ k_i` rows), while the force tensors lose exactly their first row each,
giving `Σ (k_i - 1)` combined rows for raw frame counts `k_i ≥ 1`. -/
theorem c2_concat_lengths (box energy coord forces : List (List (List ℚ)))
    (h : ∀ g ∈ forces, g ≠ []) :
    (concatWhole box).length = (box.map List.length).sum ∧
    (concatWhole energy).length = (energy.map List.length).sum ∧
    (concatWhole coord).length = (coord.map List.length).sum ∧
    concatForces forces = concatWhole (forces.map (fun g => g.drop 1)) ∧
    (concatForces forces).length = (forces.map (fun g => g.length - 1)).sum ∧
    (concatForces forces).length + forces.length = (forces.map List.length).sum := by
  have hfun : (List.length ∘ fun g : List (List ℚ) => g.tail) =
      fun g : List (List ℚ) => g.length - 1 := by
    funext g
    simp [List.length_tail]
  refine ⟨by simp [concatWhole], by simp [concatWhole], by simp [concatWhole],
          rfl, by simp [concatForces, hfun], ?_⟩
  induction forces with
  | nil => rfl
  | cons g gs ih =>
      have hg : g ≠ [] := h g (List.mem_cons_self g gs)
      have hgs := ih (fun g' hg' => h g' (List.mem_cons_of_mem _ hg'))
      have hpos : 1 ≤ g.length := by
        cases g with
        | nil => exact absurd rfl hg
        | cons a as => simp
      simp only [concatForces, List.map_cons, List.flatten_cons, List.length_append,
        List.length_drop, List.length_cons, List.sum_cons] at hgs ⊢
      omega

/-- Two concrete force-tensor groups with 11 and 6 raw frames (one extra
leading frame each, as in the spec scenario with declared steps [10, 5]). -/
def frames11 : List (List ℚ) := List.replicate 11 [0]

def frames6 : List (List ℚ) := List.replicate 6 [0]

/-- C2 witness: groups of 11 and 6 raw force frames concatenate, after the
leading-row drop, to exactly 10 + 5 = 15 combined steps. -/
theorem c2_witness :
    (∀ g ∈ [frames11, frames6], g ≠ []) ∧
    (concatForces [frames11, frames6]).length = 15 :=
  ⟨by decide,
   (c2_concat_lengths [] [] [] [frames11, frames6] (by decide)).2.2.2.2.1.trans
     (by decide)⟩

/-- Model of multicpk2deepmd.py lines 96-112 (and the identical pattern in
split_train_test.py): chunked persistence.  The per-set row count is
`int(len(data) // SPLIT_COUNT)` and subset `i` receives the slice
`data[i*n : (i+1)*n]` (Python slices clamp, as `List.drop`/`List.take` do). -/
def chunkRows {α : Type} (data : List α) (splitCount : ℕ) : List (List α) :=
  (List.range splitCount).map
    (fun i => (data.drop (i * (data.length / splitCount))).take
      (data.length / splitCount))

/-- C8: when `SPLIT_COUNT` exceeds the number of available rows the chunked
persistence still writes every one of the `SPLIT_COUNT` subsets and each —
the per-set row count being the integer division `rows // SPLIT_COUNT`,
here zero — is empty, rather than failing. -/
theorem c8_oversized_split {α : Type} (data : List α) (splitCount : ℕ)
    (h : data.length < splitCount) :
    (chunkRows data splitCount).length = splitCount ∧
    ∀ c ∈ chunkRows data splitCount, c = [] := by
  have hdiv : data.length / splitCount = 0 :=
    Nat.div_eq_of_lt h
  constructor
  · simp [chunkRows]
  · intro c hc
    obtain ⟨i, _, hci⟩ := List.mem_map.mp hc
    rw [← hci, hdiv]
    simp

/-- C8 witness: two rows split into five subsets — all five come out empty. -/
theorem c8_witness :
    ([[0], [1]] : List (List ℚ)).length < 5 ∧
    (chunkRows ([[0], [1]] : List (List ℚ)) 5).length = 5 ∧
    ∀ c ∈ chunkRows ([[0], [1]] : List (List ℚ)) 5, c = [] :=
  ⟨by decide,
   (c8_oversized_split ([[0], [1]] : List (List ℚ)) 5 (by decide)).1,
   (c8_oversized_split ([[0], [1]] : List (List ℚ)) 5 (by decide)).2⟩

/-- Model of multicpk2deepmd.py lines 124-126: the lines of `type_map.raw`,
one element symbol per line, in the insertion order of the
`kind_to_element` dict. -/
def typeMapLines (kind_to_element : List (ℤ × String)) : List String :=
  kind_to_element.map (fun p => p.2)

/-- Model of multicpk2deepmd.py lines 128-130: the lines of `type.raw`, one
per atom of the per-frame ordering, each holding `item - 1` (zero-based
kind index). -/
def typeLines (ordering_number : List ℤ) : List String :=
  ordering_number.map (fun i => toString (i - 1))

/-- C6: the assembler writes `type_map` as the element symbols of the
kind-to-element map in insertion order, one per line, and `type` as one
zero-based kind index per atom (stored value = kind index − 1).  End to
end on the spec scenario — a force file with three frames of two atoms,
kind 1 = H, kind 2 = O — the parser output produces `type_map.raw` lines
["H", "O"], `type.raw` lines ["0", "1"], and a force tensor of shape
(3, 6). -/
theorem c6_type_files :
    (∀ k2e, typeMapLines k2e = k2e.map (fun p => p.2)) ∧
    (∀ onum, typeLines onum = onum.map (fun i => toString (i - 1))) ∧
    (read_forces_data sampleForces 2 1).map
        (fun out => (typeMapLines out.1, typeLines out.2.2.1,
                     out.2.2.2.length, (out.2.2.2.headD []).length)) =
      .ok (["H", "O"], ["0", "1"], 3, 6) := by
  refine ⟨fun _ => rfl, fun _ => rfl, ?_⟩
  decide

/-- True exactly when every column of a dict has the head column's length:
the condition under which `pd.DataFrame` accepts the dict. -/
def allSameLength (cols : List (List ℚ)) : Bool :=
  cols.all (fun c => c.length == (cols.headD []).length)

/-- Model of multicpk2deepmd.py line 57,
`pd.DataFrame(read_cell_or_energy_data(...))` for the cell file: pandas
raises `ValueError` ("All arrays must be of the same length") when the
returned dict's columns have unequal lengths, which the reader produces
whenever a kept row had a failed token conversion. -/
def readCellFrame (file : List (List Token)) : Except Err (List (List ℚ)) :=
  match read_cell_data file with
  | .error e => .error e
  | .ok cols => if allSameLength cols then .ok cols else .error .valueError

/-- Model of multicpk2deepmd.py line 59, the energy-file analogue of
`readCellFrame`. -/
def readEnergyFrame (file : List (List Token)) : Except Err (List (List ℚ)) :=
  match read_energy_data file with
  | .error e => .error e
  | .ok cols => if allSameLength cols then .ok cols else .error .valueError

/-- Model of multicpk2deepmd.py lines 53-72: the per-group read loop of the
assembler.  For each group, in order: read the cell file into its data
frame (line 57), read the energy file into its data frame (line 59); if
`--ZERO_DATA` is set, execute `args.NSTEPS = args.NSTEPS + 1` (line 62) —
`NSTEPS` is a Python list, so `list + int` raises `TypeError`, modelled as
`.error .typeError` — and only then read the trajectory file (line 64) and
the forces file (line 66).  The pandas column slicing `cell.iloc[:, 2:-1]`
keeps the 9 box columns and `energy['Cons Qty[a.u.]']` keeps column
index 5; they are modelled on the schema-ordered column lists. -/
structure Group where
  cellFile : List (List Token)
  energyFile : List (List Token)
  posFile : List PosLine
  forcesFile : List ForceLine
  nsteps : ℕ

def processGroups (STDPRINT : ℕ) (ZERO_DATA : Bool) :
    List Group →
      Except Err (List (List (List ℚ) × List ℚ × List (List ℚ) × List (List ℚ)))
  | [] => .ok []
  | g :: gs =>
      match readCellFrame g.cellFile with
      | .error e => .error e
      | .ok cell =>
          match readEnergyFrame g.energyFile with
          | .error e => .error e
          | .ok energy =>
              if ZERO_DATA then .error .typeError
              else
                match read_position_data g.posFile g.nsteps STDPRINT with
                | .error e => .error e
                | .ok coord =>
                    match read_forces_data g.forcesFile g.nsteps STDPRINT with
                    | .error e => .error e
                    | .ok out =>
                        match processGroups STDPRINT ZERO_DATA gs with
                        | .error e => .error e
                        | .ok rest =>
                            .ok (((cell.drop 2).dropLast, energy.getD 5 [],
                                  coord, out.2.2.2) :: rest)

/-- A group whose cell file has exactly one valid row: reading it raises
`IndexError` in the diagnostic, before the `--ZERO_DATA` branch runs. -/
def badCellGroup : Group :=
  ⟨[[], List.replicate 12 (some 2)], [], [], [], 0⟩

/-- A group whose cell file has two kept rows of which the second carries
one failed token: the reader returns normally but its columns are ragged,
so `pd.DataFrame` raises `ValueError` at multicpk2deepmd.py line 57. -/
def raggedCellGroup : Group :=
  ⟨[[], List.replicate 12 (some 1),
    [some 1, some 1, some 1, none, some 1, some 1,
     some 1, some 1, some 1, some 1, some 1, some 1]], [], [], [], 0⟩

/-- C10 (counterexample): the claim does not hold for every invocation
with the flag enabled and a non-empty group list.  With `--ZERO_DATA` set,
a group whose cell file yields a single parsed row raises `IndexError`
inside the cell reader's diagnostic, and a group whose cell file yields
ragged columns (a kept row with one failed token) raises `ValueError`
inside `pd.DataFrame` at line 57 — in both runs before the line-62
`TypeError`, which therefore is not the exception raised. -/
theorem c10_counterexample :
    processGroups 1 true [badCellGroup] = .error .indexError ∧
    Err.indexError ≠ Err.typeError ∧
    processGroups 1 true [raggedCellGroup] = .error .valueError ∧
    Err.valueError ≠ Err.typeError := by
  refine ⟨?_, by decide, ?_, by decide⟩
  · rfl
  · rfl

/-- C10 (amended): for every invocation with the zero-based-offset flag
enabled and at least one input group whose cell and energy files are read
and loaded into their pandas data frames without raising, execution raises
the uncaught `TypeError` of `args.NSTEPS + 1` (list + int) before any
position or force file is parsed — the result is the same whatever the
group's trajectory/forces files, declared step count, or the remaining
groups — so the flag never produces an adjusted step count. -/
theorem c10_flag_type_error (STD : ℕ) (g : Group) (gs : List Group)
    (cell energy : List (List ℚ))
    (hc : readCellFrame g.cellFile = .ok cell)
    (he : readEnergyFrame g.energyFile = .ok energy) :
    processGroups STD true (g :: gs) = .error .typeError ∧
    ∀ pos fcs n, processGroups STD true
        (⟨g.cellFile, g.energyFile, pos, fcs, n⟩ :: gs) = .error .typeError := by
  constructor
  · rw [processGroups, hc, he]
    rfl
  · intro pos fcs n
    rw [processGroups]
    show (match readCellFrame g.cellFile with
      | .error e => (.error e : Except Err _)
      | .ok _ =>
          match readEnergyFrame g.energyFile with
          | .error e => .error e
          | .ok _ => .error Err.typeError) = .error Err.typeError
    rw [hc, he]

/-- A group whose cell and energy files each hold two fully valid rows, so
both read and frame without raising. -/
def goodGroup : Group :=
  ⟨[[], List.replicate 12 (some 1), List.replicate 12 (some 2)],
   [[], List.replicate 7 (some 1), List.replicate 7 (some 2)],
   [], [], 0⟩

/-- C10 witness: the amended theorem applied to a concrete group whose
cell and energy files read and frame without raising. -/
theorem c10_witness :
    processGroups 1 true [goodGroup] = .error .typeError :=
  (c10_flag_type_error 1 goodGroup []
      ((List.range 12).map (colValues 12 [List.replicate 12 (some 1), List.replicate 12 (some 2)]))
      ((List.range 7).map (colValues 7 [List.replicate 7 (some 1), List.replicate 7 (some 2)]))
      (by rfl) (by rfl)).1

/-- An assembled dataset as loaded by split_train_test.py lines 49-52: the
four persisted tensors of one `set.000`. -/
structure DSet where
  box : List (List ℚ)
  energy : List ℚ
  coord : List (List ℚ)
  force : List (List ℚ)

/-- Model of split_train_test.py lines 64-65:
`nfiles = len(box)`, `ntrain = int(TRAIN_SIZE * nfiles)`.  `TRAIN_SIZE` is
modelled as an exact rational; for the non-negative products arising from a
fraction in (0,1], Python's `int()` truncation is the floor. -/
def ntrainOf (f : ℚ) (d : DSet) : ℕ := (⌊f * d.box.length⌋).toNat

/-- Model of split_train_test.py lines 72-81 (shuffle disabled): each of the
four tensors is sliced at `ntrain` into `[:ntrain]` (train) and `[ntrain:]`
(test). -/
def splitDSet (f : ℚ) (d : DSet) : DSet × DSet :=
  (⟨d.box.take (ntrainOf f d), d.energy.take (ntrainOf f d),
    d.coord.take (ntrainOf f d), d.force.take (ntrainOf f d)⟩,
   ⟨d.box.drop (ntrainOf f d), d.energy.drop (ntrainOf f d),
    d.coord.drop (ntrainOf f d), d.force.drop (ntrainOf f d)⟩)

/-- C3: for every dataset of `N` rows per quantity and fraction
`f ∈ (0,1]`, the splitter's train and test groups satisfy
`rows(train) = floor(f*N)` and `rows(train) + rows(test) = N` for each of
the four quantities, and with shuffling disabled the train group is exactly
rows `[0, floor(f*N))` and the test group exactly rows `[floor(f*N), N)`:
for each quantity, train concatenated with test is the loaded tensor. -/
theorem c3_split_partition (f : ℚ) (d : DSet) (N : ℕ)
    (hb : d.box.length = N) (he : d.energy.length = N)
    (hc : d.coord.length = N) (hf : d.force.length = N)
    (h0 : 0 < f) (h1 : f ≤ 1) :
    (((splitDSet f d).1.box.length : ℤ) = ⌊f * N⌋ ∧
     ((splitDSet f d).1.energy.length : ℤ) = ⌊f * N⌋ ∧
     ((splitDSet f d).1.coord.length : ℤ) = ⌊f * N⌋ ∧
     ((splitDSet f d).1.force.length : ℤ) = ⌊f * N⌋) ∧
    ((splitDSet f d).1.box.length + (splitDSet f d).2.box.length = N ∧
     (splitDSet f d).1.energy.length + (splitDSet f d).2.energy.length = N ∧
     (splitDSet f d).1.coord.length + (splitDSet f d).2.coord.length = N ∧
     (splitDSet f d).1.force.length + (splitDSet f d).2.force.length = N) ∧
    ((splitDSet f d).1.box ++ (splitDSet f d).2.box = d.box ∧
     (splitDSet f d).1.energy ++ (splitDSet f d).2.energy = d.energy ∧
     (splitDSet f d).1.coord ++ (splitDSet f d).2.coord = d.coord ∧
     (splitDSet f d).1.force ++ (splitDSet f d).2.force = d.force) := by
  have hNq : (0 : ℚ) ≤ (N : ℚ) := by positivity
  have hprod0 : (0 : ℚ) ≤ f * N := by positivity
  have hfloor0 : (0 : ℤ) ≤ ⌊f * (N : ℚ)⌋ := Int.floor_nonneg.mpr hprod0
  have hprodN : f * (N : ℚ) ≤ (N : ℚ) := by
    calc f * (N : ℚ) ≤ 1 * (N : ℚ) := by
          exact mul_le_mul_of_nonneg_right h1 hNq
      _ = (N : ℚ) := one_mul _
  have hfloorN : ⌊f * (N : ℚ)⌋ ≤ (N : ℤ) := by
    have := Int.floor_le_floor hprodN
    simpa using this
  have hn : ntrainOf f d = (⌊f * (N : ℚ)⌋).toNat := by
    rw [ntrainOf, hb]
  have hnN : ntrainOf f d ≤ N := by
    rw [hn]
    omega
  have hcast : ((ntrainOf f d : ℕ) : ℤ) = ⌊f * (N : ℚ)⌋ := by
    rw [hn]
    omega
  have hlen : ∀ (α : Type) (l : List α), l.length = N →
      ((l.take (ntrainOf f d)).length : ℤ) = ⌊f * (N : ℚ)⌋ := by
    intro α l hl
    rw [List.length_take, hl]
    omega
  have hsum : ∀ (α : Type) (l : List α), l.length = N →
      (l.take (ntrainOf f d)).length + (l.drop (ntrainOf f d)).length = N := by
    intro α l hl
    rw [List.length_take, List.length_drop, hl]
    omega
  exact ⟨⟨hlen _ d.box hb, hlen _ d.energy he, hlen _ d.coord hc, hlen _ d.force hf⟩,
         ⟨hsum _ d.box hb, hsum _ d.energy he, hsum _ d.coord hc, hsum _ d.force hf⟩,
         ⟨List.take_append_drop _ d.box, List.take_append_drop _ d.energy,
          List.take_append_drop _ d.coord, List.take_append_drop _ d.force⟩⟩

/-- A concrete dataset with five rows per quantity. -/
def sampleDSet : DSet :=
  ⟨[[1], [2], [3], [4], [5]], [1, 2, 3, 4, 5],
   [[1], [2], [3], [4], [5]], [[1], [2], [3], [4], [5]]⟩

/-- C3 witness: the theorem applied to a five-row dataset with
`f = 4/5`: `floor(0.8 * 5) = 4` train rows and 1 test row. -/
theorem c3_witness :
    (0 : ℚ) < 4/5 ∧ (4/5 : ℚ) ≤ 1 ∧
    ((splitDSet (4/5) sampleDSet).1.box.length : ℤ) = ⌊(4/5 : ℚ) * ((5 : ℕ) : ℚ)⌋ ∧
    (splitDSet (4/5) sampleDSet).1.box.length + (splitDSet (4/5) sampleDSet).2.box.length = 5 ∧
    (splitDSet (4/5) sampleDSet).1.force ++ (splitDSet (4/5) sampleDSet).2.force = sampleDSet.force :=
  ⟨by norm_num, by norm_num,
   (c3_split_partition (4/5) sampleDSet 5 rfl rfl rfl rfl (by norm_num) (by norm_num)).1.1,
   (c3_split_partition (4/5) sampleDSet 5 rfl rfl rfl rfl (by norm_num) (by norm_num)).2.1.1,
   (c3_split_partition (4/5) sampleDSet 5 rfl rfl rfl rfl (by norm_num) (by norm_num)).2.2.2.2.2⟩

end Cp2kToDeepmd
